import Mathlib

set_option maxHeartbeats 1000000
set_option maxRecDepth 4000

/-!
Verification of the Baidu search CLI tool (src/agents/tools/baidu/baidu_search.py).

The program wraps an external search gateway, normalizes each returned raw
record into a fixed five-field result, and renders the results either as text
or as JSON.  We embed the value universe of the raw records (strings and
integers), the normalization loop, the search wrapper with its blanket
exception handler, both renderers, and the JSON serializer the program uses
(json.dumps with ensure_ascii=False and indent=2), together with a JSON parser
used to state round-trip properties of the emitted JSON.
-/

namespace BaiduSearch

/-- Values appearing in the provider's raw result mappings: the gateway
interface promises strings for title, url, abstract and an integer for rank,
so these two constructors cover the dynamic values the source manipulates. -/
inductive PyVal where
  | pyStr : String → PyVal
  | pyInt : Int → PyVal
  deriving DecidableEq, Repr

/-- A raw provider record.  The source reads exactly the four keys
title, url, abstract, rank with result.get, and each may be absent. -/
structure RawRecord where
  title : Option PyVal
  url : Option PyVal
  abstract : Option PyVal
  rank : Option PyVal
  deriving DecidableEq, Repr

/-- The normalized record built at source lines 55-61: all five fields are
always present. -/
structure FormattedResult where
  title : PyVal
  url : PyVal
  abstract : PyVal
  rank : PyVal
  source : PyVal
  deriving DecidableEq, Repr

/-- Truthiness of a value, as used by the if tests at source lines 47 and 117:
a string is truthy iff non-empty, an integer iff non-zero. -/
def pyTruthy : PyVal → Bool
  | .pyStr s => s != ""
  | .pyInt n => n != 0

/-- ASCII whitespace stripped by str.strip() at source line 48. -/
def pyWs (c : Char) : Bool :=
  c = ' ' || c = '\t' || c = '\n' || c = '\r' || c = '\x0b' || c = '\x0c'

/-- Strip leading and trailing whitespace from a character list. -/
def stripChars (l : List Char) : List Char :=
  ((l.dropWhile pyWs).reverse.dropWhile pyWs).reverse

/-- Embedding of abstract.strip() (source line 48): defined on strings,
raises AttributeError on an integer. -/
def pyStrip : PyVal → Except String PyVal
  | .pyStr s => .ok (.pyStr (String.mk (stripChars s.data)))
  | .pyInt _ => .error "AttributeError: int object has no attribute strip"

/-- The provider base origin prefixed to relative URLs at source line 53. -/
def baiduOrigin : String := "https://www.baidu.com"

/-- Embedding of url.startswith of the one-character prefix at source
line 52. -/
def startsWithSlash (s : String) : Bool :=
  match s.data with
  | c :: _ => c = '/'
  | [] => false

/-- Embedding of source lines 52-53: a string url is rewritten to an absolute
URL when it starts with a slash and left unchanged otherwise; calling
startswith on an integer raises AttributeError. -/
def pyAbsolutize : PyVal → Except String PyVal
  | .pyStr s =>
      .ok (.pyStr (if startsWithSlash s then baiduOrigin ++ s else s))
  | .pyInt _ => .error "AttributeError: int object has no attribute startswith"

/-- One iteration of the formatting loop, source lines 44-62: read abstract
with default empty string, strip it when truthy, read url with default empty
string, absolutize it, and build the five-field record with the documented
defaults for title and rank and the constant source string. -/
def normalizeRecord (result : RawRecord) : Except String FormattedResult :=
  match (if pyTruthy (result.abstract.getD (.pyStr ""))
         then pyStrip (result.abstract.getD (.pyStr ""))
         else .ok (result.abstract.getD (.pyStr ""))) with
  | .error e => .error e
  | .ok abstract =>
    match pyAbsolutize (result.url.getD (.pyStr "")) with
    | .error e => .error e
    | .ok url =>
      .ok {
        title := result.title.getD (.pyStr "")
        url := url
        abstract := abstract
        rank := result.rank.getD (.pyInt 0)
        source := .pyStr "百度"
      }

/-- The whole formatting loop over the gateway's record list.  The loop runs
inside the try block, so the first record that raises aborts the loop and the
partial list of already formatted records is discarded by the handler. -/
def formatResults : List RawRecord → Except String (List FormattedResult)
  | [] => .ok []
  | r :: rs =>
    match normalizeRecord r with
    | .error e => .error e
    | .ok f =>
      match formatResults rs with
      | .error e => .error e
      | .ok fs => .ok (f :: fs)

/-- Observable outcome of the search wrapper: the diagnostic lines it prints
and the list it returns. -/
structure SearchOutcome where
  printed : List String
  returned : List FormattedResult
  deriving DecidableEq, Repr

/-- The search wrapper, source lines 38-68.  The gateway call either yields a
record list or raises (modelled as an Except value).  Any exception raised by
the gateway call or inside the formatting loop reaches the blanket handler at
line 66, which prints the diagnostic line and returns the empty list. -/
def search (gatewayOutcome : Except String (List RawRecord)) : SearchOutcome :=
  match gatewayOutcome with
  | .error e => { printed := ["搜索出错: " ++ e], returned := [] }
  | .ok rs =>
    match formatResults rs with
    | .error e => { printed := ["搜索出错: " ++ e], returned := [] }
    | .ok fs => { printed := [], returned := fs }

/-- Decimal digit character for a value below ten. -/
def digitChar (d : Nat) : Char := Char.ofNat (48 + d)

/-- Fueled loop producing the decimal digits of a natural number, most
significant first, in front of an accumulator. -/
def natDigitsGo (fuel : Nat) (n : Nat) (acc : List Char) : List Char :=
  match fuel with
  | 0 => acc
  | fuel + 1 =>
    if n < 10 then digitChar n :: acc
    else natDigitsGo fuel (n / 10) (digitChar (n % 10) :: acc)

/-- Decimal digits of a natural number, most significant first. -/
def natDigits (n : Nat) : List Char := natDigitsGo (n + 1) n []

/-- Decimal rendering of an integer, as Python str. -/
def intChars : Int → List Char
  | .ofNat n => natDigits n
  | .negSucc n => '-' :: natDigits (n + 1)

/-- Decimal rendering of a natural number as a string. -/
def natRepr (n : Nat) : String := String.mk (natDigits n)

/-- Conversion applied to a value interpolated into an f-string. -/
def pyToStr : PyVal → String
  | .pyStr s => s
  | .pyInt n => String.mk (intChars n)

/-- The truncation limit used at source lines 119-120. -/
def truncLimit : Nat := 200

/-- Embedding of the slice r.abstract[:200] at source line 119: defined on
strings, raises TypeError on an integer. -/
def pySlice : PyVal → Except String String
  | .pyStr s => .ok (String.mk (s.data.take truncLimit))
  | .pyInt _ => .error "TypeError: int object is not subscriptable"

/-- Embedding of len(r.abstract) at source line 120. -/
def pyLen : PyVal → Except String Nat
  | .pyStr s => .ok s.data.length
  | .pyInt _ => .error "TypeError: int object has no len"

/-- The abstract lines printed for one record, source lines 117-122: nothing
when the abstract is falsy, otherwise one line holding the abstract sliced to
200 characters with an ellipsis appended exactly when the original length
exceeds 200 (the slice at line 119 runs before the length test at line 120,
so an unsliceable value raises before the length test would). -/
def renderAbstract (v : PyVal) : Except String (List String) :=
  if pyTruthy v then
    match pySlice v with
    | .error e => .error e
    | .ok a =>
      match pyLen v with
      | .error e => .error e
      | .ok n => .ok ["    摘要: " ++ (if n > truncLimit then a ++ "..." else a)]
  else .ok []

/-- Lines printed for one record by the text renderer, source lines 114-123:
the 1-based index with the title, the link line, the abstract lines, and a
closing blank line. -/
def renderRecord (i : Nat) (r : FormattedResult) : Except String (List String) :=
  match renderAbstract r.abstract with
  | .error e => .error e
  | .ok mid =>
    .ok (["[" ++ natRepr i ++ "] " ++ pyToStr r.title,
          "    链接: " ++ pyToStr r.url] ++ mid ++ [""])

/-- The text-mode loop over all records, enumerating from a starting index
(the source starts at 1). -/
def renderText : Nat → List FormattedResult → Except String (List String)
  | _, [] => .ok []
  | i, r :: rs =>
    match renderRecord i r with
    | .error e => .error e
    | .ok a =>
      match renderText (i + 1) rs with
      | .error e => .error e
      | .ok b => .ok (a ++ b)

/- JSON documents, mirroring the values json.dumps receives at source
line 111: strings, integers, arrays and objects with ordered string keys. -/
mutual

/-- A JSON value. -/
inductive J where
  | jstr : String → J
  | jint : Int → J
  | jarr : JList → J
  | jobj : JObj → J

/-- The element list of a JSON array. -/
inductive JList where
  | jnil : JList
  | jcons : J → JList → JList

/-- The ordered key-value members of a JSON object. -/
inductive JObj where
  | onil : JObj
  | ocons : String → J → JObj → JObj

end

/-- Opening brace character. -/
def lbrace : Char := Char.ofNat 123

/-- Closing brace character. -/
def rbrace : Char := Char.ofNat 125

/-- Lowercase hexadecimal digit character for a value below sixteen. -/
def hexDigitChar (d : Nat) : Char :=
  if d < 10 then Char.ofNat (48 + d) else Char.ofNat (87 + d)

/-- The string escaping performed by json.dumps with ensure_ascii=False: only
the quote, the backslash and control characters below 0x20 are escaped (the
five with short names, the rest as a \u00XX sequence); every other character,
non-ASCII included, is emitted literally. -/
def escapeChar (c : Char) : List Char :=
  if c = '"' then ['\\', '"']
  else if c = '\\' then ['\\', '\\']
  else if c = '\n' then ['\\', 'n']
  else if c = '\t' then ['\\', 't']
  else if c = '\r' then ['\\', 'r']
  else if c = '\x08' then ['\\', 'b']
  else if c = '\x0c' then ['\\', 'f']
  else if c.toNat < 32 then
    ['\\', 'u', '0', '0', hexDigitChar (c.toNat / 16), hexDigitChar (c.toNat % 16)]
  else [c]

/-- Escape every character of a string body. -/
def escapeChars : List Char → List Char
  | [] => []
  | c :: cs => escapeChar c ++ escapeChars cs

/-- A JSON string literal: quote, escaped body, quote. -/
def strLit (s : String) : List Char := '"' :: (escapeChars s.data ++ ['"'])

/-- Indentation for a nesting level: two spaces per level, as produced by
json.dumps with indent=2. -/
def pad (lvl : Nat) : List Char := List.replicate (2 * lvl) ' '

/- Serialization of a JSON document exactly as json.dumps(output,
ensure_ascii=False, indent=2) lays it out: items of a non-empty container
each on their own line indented two spaces deeper, item separator a bare
comma, key separator a colon and one space, empty containers inline. -/
mutual

/-- Serialize one JSON value at a nesting level. -/
def dumpJ : Nat → J → List Char
  | _, .jstr s => strLit s
  | _, .jint n => intChars n
  | _, .jarr .jnil => ['[', ']']
  | lvl, .jarr (.jcons x xs) =>
      '[' :: '\n' :: (pad (lvl + 1) ++ dumpJ (lvl + 1) x ++ dumpArrRest (lvl + 1) xs
        ++ '\n' :: (pad lvl ++ [']']))
  | _, .jobj .onil => [lbrace, rbrace]
  | lvl, .jobj (.ocons k v kvs) =>
      lbrace :: '\n' :: (pad (lvl + 1) ++ strLit k ++ ':' :: ' ' :: dumpJ (lvl + 1) v
        ++ dumpObjRest (lvl + 1) kvs ++ '\n' :: (pad lvl ++ [rbrace]))

/-- Serialize the remaining array elements after the first. -/
def dumpArrRest : Nat → JList → List Char
  | _, .jnil => []
  | lvl, .jcons x xs => ',' :: '\n' :: (pad lvl ++ dumpJ lvl x ++ dumpArrRest lvl xs)

/-- Serialize the remaining object members after the first. -/
def dumpObjRest : Nat → JObj → List Char
  | _, .onil => []
  | lvl, .ocons k v kvs =>
      ',' :: '\n' :: (pad lvl ++ strLit k ++ ':' :: ' ' :: dumpJ lvl v ++ dumpObjRest lvl kvs)

end

/-- A formatted result value as a JSON value. -/
def pyValToJ : PyVal → J
  | .pyStr s => .jstr s
  | .pyInt n => .jint n

/-- One formatted record as the JSON object json.dumps serializes, keys in
dict insertion order (source lines 55-61). -/
def resultToJ (r : FormattedResult) : J :=
  .jobj (.ocons "title" (pyValToJ r.title) (.ocons "url" (pyValToJ r.url)
    (.ocons "abstract" (pyValToJ r.abstract) (.ocons "rank" (pyValToJ r.rank)
      (.ocons "source" (pyValToJ r.source) .onil)))))

/-- The results list as a JSON array body. -/
def resultsToJList : List FormattedResult → JList
  | [] => .jnil
  | r :: rs => .jcons (resultToJ r) (resultsToJList rs)

/-- The output dictionary built at source lines 104-110, keys in insertion
order: web (holding results), query, total. -/
def outputDoc (query : String) (results : List FormattedResult) : J :=
  .jobj (.ocons "web" (.jobj (.ocons "results" (.jarr (resultsToJList results)) .onil))
    (.ocons "query" (.jstr query)
      (.ocons "total" (.jint (results.length : Int)) .onil)))

/-- The JSON text printed at source line 111. -/
def dumpsOutput (query : String) (results : List FormattedResult) : String :=
  String.mk (dumpJ 0 (outputDoc query results))

/-- The rendering stage of main, source lines 98-123: on an empty list print
the no-results notice and return; otherwise branch on the output format. -/
def renderResults (outputMode : String) (query : String)
    (results : List FormattedResult) : Except String (List String) :=
  if results.isEmpty then .ok ["未找到结果"]
  else if outputMode = "json" then .ok [dumpsOutput query results]
  else renderText 1 results

/-- Everything main prints, source lines 94-123: the header line first (the
print call appends one newline to the f-string, which itself ends in a
newline), then whatever the search wrapper printed, then the rendering. -/
def mainOutput (query : String) (outputMode : String)
    (gatewayOutcome : Except String (List RawRecord)) : Except String (List String) :=
  match renderResults outputMode query (search gatewayOutcome).returned with
  | .error e => .error e
  | .ok rendered =>
    .ok (("🔍 搜索: " ++ query ++ "\n") :: ((search gatewayOutcome).printed ++ rendered))

/-- The complete stdout character stream of a run: each printed string
followed by the newline print appends. -/
def stdoutOf : List String → List Char
  | [] => []
  | s :: rest => s.data ++ '\n' :: stdoutOf rest

/-- Whitespace as skipped by a JSON parser. -/
def isWsChar (c : Char) : Bool := c = ' ' || c = '\n' || c = '\t' || c = '\r'

/-- Skip leading JSON whitespace. -/
def skipWs : List Char → List Char
  | [] => []
  | c :: cs => if isWsChar c then skipWs cs else c :: cs

/-- Value of a hexadecimal digit character. -/
def hexVal (c : Char) : Option Nat :=
  if 48 ≤ c.toNat ∧ c.toNat ≤ 57 then some (c.toNat - 48)
  else if 97 ≤ c.toNat ∧ c.toNat ≤ 102 then some (c.toNat - 87)
  else if 65 ≤ c.toNat ∧ c.toNat ≤ 70 then some (c.toNat - 55)
  else none

/-- Parse the body of a JSON string literal after its opening quote,
returning the decoded characters and the input after the closing quote. -/
def parseStringBody (input : List Char) : Option (List Char × List Char) :=
  match input with
  | [] => none
  | c :: rest =>
    if c = '"' then some ([], rest)
    else if c = '\\' then
      match rest with
      | [] => none
      | e :: rest2 =>
        if e = '"' then (parseStringBody rest2).map (fun p => ('"' :: p.1, p.2))
        else if e = '\\' then (parseStringBody rest2).map (fun p => ('\\' :: p.1, p.2))
        else if e = 'n' then (parseStringBody rest2).map (fun p => ('\n' :: p.1, p.2))
        else if e = 't' then (parseStringBody rest2).map (fun p => ('\t' :: p.1, p.2))
        else if e = 'r' then (parseStringBody rest2).map (fun p => ('\r' :: p.1, p.2))
        else if e = 'b' then (parseStringBody rest2).map (fun p => ('\x08' :: p.1, p.2))
        else if e = 'f' then (parseStringBody rest2).map (fun p => ('\x0c' :: p.1, p.2))
        else if e = 'u' then
          match rest2 with
          | h1 :: h2 :: h3 :: h4 :: rest3 =>
            match hexVal h1, hexVal h2, hexVal h3, hexVal h4 with
            | some a, some b, some c2, some d =>
              (parseStringBody rest3).map
                (fun p => (Char.ofNat (4096 * a + 256 * b + 16 * c2 + d) :: p.1, p.2))
            | _, _, _, _ => none
          | _ => none
        else none
    else (parseStringBody rest).map (fun p => (c :: p.1, p.2))
termination_by structural input

/-- Consume a run of decimal digits, extending an accumulator. -/
def parseDigitsRun : List Char → Nat → Nat × List Char
  | [], acc => (acc, [])
  | c :: cs, acc =>
    if c.isDigit then parseDigitsRun cs (acc * 10 + (c.toNat - 48))
    else (acc, c :: cs)

/-- Parse a natural number literal: at least one digit. -/
def parseNatLit : List Char → Option (Nat × List Char)
  | [] => none
  | c :: cs => if c.isDigit then some (parseDigitsRun (c :: cs) 0) else none

/-- Parse an integer literal with an optional leading minus sign. -/
def parseIntLit : List Char → Option (Int × List Char)
  | [] => none
  | c :: cs =>
    if c = '-' then (parseNatLit cs).map (fun p => (-(p.1 : Int), p.2))
    else (parseNatLit (c :: cs)).map (fun p => ((p.1 : Int), p.2))

/- Recursive-descent JSON parser, fueled by the nesting budget: a value and
the continuations of an array or object after the first element; object
member parsing (key string, colon, value) is inlined at both use sites so
that the mutual recursion is structural on the fuel. -/
mutual

/-- Parse one JSON value, skipping leading whitespace. -/
def parseValue (fuel : Nat) (input : List Char) : Option (J × List Char) :=
  match fuel, input with
  | 0, _ => none
  | fuel + 1, input =>
    match skipWs input with
    | [] => none
    | c :: rest =>
      if c = '"' then (parseStringBody rest).map (fun p => (J.jstr (String.mk p.1), p.2))
      else if c = '[' then
        match skipWs rest with
        | [] => none
        | d :: rest2 =>
          if d = ']' then some (.jarr .jnil, rest2)
          else
            match parseValue fuel rest with
            | some (x, rest3) =>
              (parseArrRest fuel rest3).map (fun p => (J.jarr (.jcons x p.1), p.2))
            | none => none
      else if c = lbrace then
        match skipWs rest with
        | [] => none
        | d :: rest2 =>
          if d = rbrace then some (.jobj .onil, rest2)
          else if d = '"' then
            match parseStringBody rest2 with
            | some (k, rest3) =>
              match skipWs rest3 with
              | [] => none
              | e :: rest4 =>
                if e = ':' then
                  match parseValue fuel rest4 with
                  | some (v, rest5) =>
                    (parseObjRest fuel rest5).map
                      (fun p => (J.jobj (.ocons (String.mk k) v p.1), p.2))
                  | none => none
                else none
            | none => none
          else none
      else if c = '-' || c.isDigit then
        (parseIntLit (c :: rest)).map (fun p => (J.jint p.1, p.2))
      else none

/-- Parse the continuation of an array after an element: a closing bracket
or a comma and a further element. -/
def parseArrRest (fuel : Nat) (input : List Char) : Option (JList × List Char) :=
  match fuel, input with
  | 0, _ => none
  | fuel + 1, input =>
    match skipWs input with
    | [] => none
    | c :: rest =>
      if c = ']' then some (.jnil, rest)
      else if c = ',' then
        match parseValue fuel rest with
        | some (x, rest2) => (parseArrRest fuel rest2).map (fun p => (JList.jcons x p.1, p.2))
        | none => none
      else none

/-- Parse the continuation of an object after a member: a closing brace or a
comma and a further member. -/
def parseObjRest (fuel : Nat) (input : List Char) : Option (JObj × List Char) :=
  match fuel, input with
  | 0, _ => none
  | fuel + 1, input =>
    match skipWs input with
    | [] => none
    | c :: rest =>
      if c = rbrace then some (.onil, rest)
      else if c = ',' then
        match skipWs rest with
        | [] => none
        | d :: rest2 =>
          if d = '"' then
            match parseStringBody rest2 with
            | some (k, rest3) =>
              match skipWs rest3 with
              | [] => none
              | e :: rest4 =>
                if e = ':' then
                  match parseValue fuel rest4 with
                  | some (v, rest5) =>
                    (parseObjRest fuel rest5).map
                      (fun p => (JObj.ocons (String.mk k) v p.1, p.2))
                  | none => none
                else none
            | none => none
          else none
      else none

end

/-- Parse a character stream as one JSON document with nothing but
whitespace after it. -/
def parseJsonChars (l : List Char) : Option J :=
  match parseValue (l.length + 1) l with
  | some (j, rest) => if skipWs rest = [] then some j else none
  | none => none

/-- Parse a string as one JSON document. -/
def parseJson (s : String) : Option J := parseJsonChars s.data

/-- Lookup in the ordered key-value list of a JSON object. -/
def jLookupObj : JObj → String → Option J
  | .onil, _ => none
  | .ocons k v rest, key => if k = key then some v else jLookupObj rest key

/-- Lookup of a top-level key in a JSON object document. -/
def jLookup : J → String → Option J
  | .jobj kvs, k => jLookupObj kvs k
  | _, _ => none

/-- Length of a JSON array body. -/
def jlistLength : JList → Nat
  | .jnil => 0
  | .jcons _ xs => jlistLength xs + 1

example : normalizeRecord ⟨some (.pyStr "A"), some (.pyStr "/x"),
    some (.pyStr "  hi  "), some (.pyInt 1)⟩ =
    .ok ⟨.pyStr "A", .pyStr "https://www.baidu.com/x", .pyStr "hi",
      .pyInt 1, .pyStr "百度"⟩ := rfl

example : search (.error "boom") = ⟨["搜索出错: boom"], []⟩ := by decide

example : renderRecord 1 ⟨.pyStr "T", .pyStr "u", .pyStr "", .pyInt 1, .pyStr "百度"⟩ =
    .ok ["[1] T", "    链接: u", ""] := rfl

def exRec : FormattedResult :=
  ⟨.pyStr "A", .pyStr "https://www.baidu.com/x", .pyStr "hi 百度", .pyInt 1, .pyStr "百度"⟩

example : dumpsOutput "横店 招募" [exRec] =
    "\x7b\n  \"web\": \x7b\n    \"results\": [\n      \x7b\n        \"title\": \"A\",\n        \"url\": \"https://www.baidu.com/x\",\n        \"abstract\": \"hi 百度\",\n        \"rank\": 1,\n        \"source\": \"百度\"\n      \x7d\n    ]\n  \x7d,\n  \"query\": \"横店 招募\",\n  \"total\": 1\n\x7d" := rfl

example : dumpsOutput "q" [] =
    "\x7b\n  \"web\": \x7b\n    \"results\": []\n  \x7d,\n  \"query\": \"q\",\n  \"total\": 0\n\x7d" := rfl

example : parseJson (dumpsOutput "横店 招募" [exRec]) = some (outputDoc "横店 招募" [exRec]) := rfl

example : parseJson "未找到结果" = none := rfl

/-- C8: the end-to-end scenario record: title A, relative url /x, abstract
with surrounding blanks, rank 1 normalizes to the absolutized url, the
trimmed abstract, the passed-through rank and the constant source 百度. -/
theorem claim_C8_scenario_record :
    normalizeRecord ⟨some (.pyStr "A"), some (.pyStr "/x"),
        some (.pyStr "  hi  "), some (.pyInt 1)⟩ =
      .ok ⟨.pyStr "A", .pyStr "https://www.baidu.com/x", .pyStr "hi",
        .pyInt 1, .pyStr "百度"⟩ := rfl

/-- C1: when normalization succeeds on a record whose url value is the
string u, the normalized url is the origin prepended to u when u starts
with a slash, and u itself unchanged otherwise. -/
theorem claim_C1_url_normalization (r : RawRecord) (u : String) (f : FormattedResult)
    (hu : r.url = some (.pyStr u)) (hok : normalizeRecord r = .ok f) :
    f.url = .pyStr (if startsWithSlash u then baiduOrigin ++ u else u) := by
  unfold normalizeRecord at hok
  rw [hu] at hok
  split at hok
  · simp at hok
  · split at hok
    · simp at hok
    · rename_i url habs2
      simp only [Option.getD, pyAbsolutize, Except.ok.injEq] at habs2
      cases hok
      exact habs2.symm

/-- C1 witness: a record with a relative url and one with an absolute url. -/
theorem claim_C1_url_normalization_witness :
    (⟨.pyStr "t", .pyStr "https://www.baidu.com/s?x", .pyStr "", .pyInt 0,
        .pyStr "百度"⟩ : FormattedResult).url =
      .pyStr (if startsWithSlash "/s?x" then baiduOrigin ++ "/s?x" else "/s?x") :=
  claim_C1_url_normalization
    ⟨some (.pyStr "t"), some (.pyStr "/s?x"), none, none⟩ "/s?x" _ rfl rfl

/-- C2: a record whose present url and abstract values are strings (as the
gateway interface promises) always normalizes without error, and every
missing key receives its documented default: empty string for title, url and
abstract, zero for rank; the source field is always populated. -/
theorem claim_C2_missing_key_defaults (r : RawRecord)
    (hu : r.url = none ∨ ∃ s, r.url = some (.pyStr s))
    (ha : r.abstract = none ∨ ∃ s, r.abstract = some (.pyStr s)) :
    ∃ f, normalizeRecord r = .ok f
      ∧ (r.title = none → f.title = .pyStr "")
      ∧ (r.url = none → f.url = .pyStr "")
      ∧ (r.abstract = none → f.abstract = .pyStr "")
      ∧ (r.rank = none → f.rank = .pyInt 0)
      ∧ f.source = .pyStr "百度" := by
  have hav : ∃ s0, r.abstract.getD (.pyStr "") = .pyStr s0
      ∧ (r.abstract = none → s0 = "") := by
    rcases ha with h | ⟨s, h⟩
    · exact ⟨"", by rw [h]; exact ⟨rfl, fun _ => rfl⟩⟩
    · exact ⟨s, by rw [h]; exact ⟨rfl, by simp⟩⟩
  have huv : ∃ t0, r.url.getD (.pyStr "") = .pyStr t0
      ∧ (r.url = none → t0 = "") := by
    rcases hu with h | ⟨t, h⟩
    · exact ⟨"", by rw [h]; exact ⟨rfl, fun _ => rfl⟩⟩
    · exact ⟨t, by rw [h]; exact ⟨rfl, by simp⟩⟩
  obtain ⟨s0, hs0, hs0n⟩ := hav
  obtain ⟨t0, ht0, ht0n⟩ := huv
  unfold normalizeRecord
  rw [hs0, ht0]
  by_cases h0 : s0 = ""
  · subst h0
    refine ⟨_, rfl, ?_, ?_, ?_, ?_, rfl⟩
    · intro h; rw [h]; rfl
    · intro h
      have : t0 = "" := ht0n h
      subst this
      rfl
    · intro _; rfl
    · intro h; rw [h]; rfl
  · have htr : pyTruthy (.pyStr s0) = true := by
      simp [pyTruthy]
      exact h0
    rw [htr]
    simp only [if_true, pyStrip]
    refine ⟨_, rfl, ?_, ?_, ?_, ?_, rfl⟩
    · intro h; rw [h]; rfl
    · intro h
      have : t0 = "" := ht0n h
      subst this
      rfl
    · intro h
      exact absurd (hs0n h) h0
    · intro h; rw [h]; rfl

/-- C2 witness: the record with all four keys missing normalizes to the
all-defaults record. -/
theorem claim_C2_missing_key_defaults_witness :
    ∃ f, normalizeRecord ⟨none, none, none, none⟩ = .ok f
      ∧ ((⟨none, none, none, none⟩ : RawRecord).title = none → f.title = .pyStr "")
      ∧ ((⟨none, none, none, none⟩ : RawRecord).url = none → f.url = .pyStr "")
      ∧ ((⟨none, none, none, none⟩ : RawRecord).abstract = none → f.abstract = .pyStr "")
      ∧ ((⟨none, none, none, none⟩ : RawRecord).rank = none → f.rank = .pyInt 0)
      ∧ f.source = .pyStr "百度" :=
  claim_C2_missing_key_defaults ⟨none, none, none, none⟩ (Or.inl rfl) (Or.inl rfl)

/-- C4: when the gateway call raises, the wrapper catches the error, prints
one diagnostic line containing the error text, and returns the empty list;
no error escapes (search is a total function into SearchOutcome). -/
theorem claim_C4_gateway_error_caught (e : String) :
    search (.error e) = ⟨["搜索出错: " ++ e], []⟩
      ∧ ∃ pre, "搜索出错: " ++ e = pre ++ e :=
  ⟨rfl, ⟨"搜索出错: ", rfl⟩⟩

/-- C5: on an empty result list the renderer prints exactly the no-results
notice and returns early in every output mode, so the JSON branch is never
reached regardless of the requested format. -/
theorem claim_C5_empty_rendering (outputMode query : String) :
    renderResults outputMode query [] = .ok ["未找到结果"] := rfl

/-- C9: if the formatting loop over the gateway records raises (an exception
inside the wrapper after the gateway call), the wrapper returns the empty
list with the diagnostic line: no partially normalized prefix escapes. -/
theorem claim_C9_normalization_error_atomic (rs : List RawRecord) (e : String)
    (h : formatResults rs = .error e) :
    search (.ok rs) = ⟨["搜索出错: " ++ e], []⟩ := by
  have hs : search (.ok rs) =
      (match formatResults rs with
       | .error e => ⟨["搜索出错: " ++ e], []⟩
       | .ok fs => ⟨[], fs⟩) := rfl
  rw [hs, h]

/-- C9 witness: a list whose first record normalizes fine and whose second
raises in strip; the wrapper returns the empty list, discarding the first. -/
theorem claim_C9_normalization_error_atomic_witness :
    search (.ok [⟨some (.pyStr "A"), some (.pyStr "/x"), some (.pyStr "ok"), some (.pyInt 1)⟩,
        ⟨some (.pyStr "B"), some (.pyStr "/y"), some (.pyInt 5), some (.pyInt 2)⟩]) =
      ⟨["搜索出错: AttributeError: int object has no attribute strip"], []⟩ :=
  claim_C9_normalization_error_atomic _ _ rfl

def emptyAbstractResult : FormattedResult :=
  ⟨.pyStr "T", .pyStr "u", .pyStr "", .pyInt 1, .pyStr "百度"⟩

/-- C3 counterexample: a record whose abstract is the empty string (length
at most 200) renders with no abstract line at all, so the full abstract is
not printed as the claim demands for every abstract of length at most 200. -/
theorem claim_C3_counterexample :
    emptyAbstractResult.abstract = .pyStr "" ∧ ("" : String).length ≤ truncLimit
      ∧ renderRecord 1 emptyAbstractResult = .ok ["[1] T", "    链接: u", ""]
      ∧ ("    摘要: " ++ "") ∉ ["[1] T", "    链接: u", ""] :=
  ⟨rfl, by decide, rfl, by decide⟩

/-- C3 amended: for a record whose abstract is the string a, text rendering
prints no abstract line when a is empty; otherwise it prints one abstract
line holding exactly the first 200 characters followed by the ellipsis when
a is longer than 200 characters, and the whole of a with no ellipsis when a
has length at most 200. -/
theorem claim_C3_truncation (i : Nat) (r : FormattedResult) (a : String)
    (ha : r.abstract = .pyStr a) :
    renderRecord i r = .ok
      (["[" ++ natRepr i ++ "] " ++ pyToStr r.title, "    链接: " ++ pyToStr r.url]
        ++ (if a = "" then []
            else ["    摘要: " ++
              (if truncLimit < a.data.length
               then String.mk (a.data.take truncLimit) ++ "..." else a)])
        ++ [""]) := by
  unfold renderRecord renderAbstract
  rw [ha]
  by_cases h0 : a = ""
  · subst h0; rfl
  · have htr : pyTruthy (.pyStr a) = true := by
      simp [pyTruthy]
      exact h0
    rw [htr]
    simp only [if_true, pySlice, pyLen]
    rw [if_neg h0]
    by_cases hl : truncLimit < a.data.length
    · rw [if_pos hl, if_pos hl]
    · rw [if_neg hl, if_neg hl]
      have hta : a.data.take truncLimit = a.data := List.take_of_length_le (by omega)
      rw [hta]

def longAbstract : String := String.mk (List.replicate 201 'x')

/-- C3 witness: a 201-character abstract renders as its first 200 characters
followed by the ellipsis. -/
theorem claim_C3_truncation_witness :
    renderRecord 1 ⟨.pyStr "T", .pyStr "u", .pyStr longAbstract, .pyInt 9, .pyStr "百度"⟩ =
      .ok (["[1] T", "    链接: u"]
        ++ (if longAbstract = "" then []
            else ["    摘要: " ++
              (if truncLimit < longAbstract.data.length
               then String.mk (longAbstract.data.take truncLimit) ++ "..." else longAbstract)])
        ++ [""]) :=
  claim_C3_truncation 1 _ longAbstract rfl

/-- C6 counterexample: run with output mode json and a gateway returning
zero records, the program prints the header and the no-results notice; the
notice is not parseable JSON and differs from the JSON the claim expects, so
no JSON object with total 0 is printed. -/
theorem claim_C6_counterexample :
    mainOutput "test" "json" (.ok []) = .ok ["🔍 搜索: test\n", "未找到结果"]
      ∧ parseJson "未找到结果" = none
      ∧ "未找到结果" ≠ dumpsOutput "test" [] :=
  ⟨rfl, rfl, by decide⟩

/-- C6 amended: with output mode json and zero gateway records the program
prints the header line and the plain no-results notice; no JSON object is
emitted (the empty-result shortcut runs before the format branch). -/
theorem claim_C6_amended_no_json_on_empty (query : String) :
    mainOutput query "json" (.ok []) =
      .ok ["🔍 搜索: " ++ query ++ "\n", "未找到结果"] := rfl

/-- The input after a serialized number must not continue with a digit, so
that the number parser stops exactly where the serializer stopped. -/
def digitSafe : List Char → Prop
  | [] => True
  | c :: _ => c.isDigit = false

lemma skipWs_not_ws {c : Char} (l : List Char) (h : isWsChar c = false) :
    skipWs (c :: l) = c :: l := by
  simp [skipWs, h]

lemma skipWs_spaces (n : Nat) (l : List Char) :
    skipWs (List.replicate n ' ' ++ l) = skipWs l := by
  induction n with
  | zero => rfl
  | succ n ih =>
    rw [List.replicate_succ, List.cons_append]
    have h1 : skipWs (' ' :: (List.replicate n ' ' ++ l))
        = skipWs (List.replicate n ' ' ++ l) := by
      simp [skipWs, isWsChar]
    rw [h1, ih]

lemma skipWs_nl_pad (lvl : Nat) (l : List Char) :
    skipWs ('\n' :: (pad lvl ++ l)) = skipWs l := by
  have h1 : skipWs ('\n' :: (pad lvl ++ l)) = skipWs (pad lvl ++ l) := by
    simp [skipWs, isWsChar]
  rw [h1]
  exact skipWs_spaces _ _

lemma natDigitsGo_acc (fuel : Nat) : ∀ (n : Nat) (acc : List Char),
    natDigitsGo fuel n acc = natDigitsGo fuel n [] ++ acc := by
  induction fuel with
  | zero => intro n acc; simp [natDigitsGo]
  | succ fuel ih =>
    intro n acc
    simp only [natDigitsGo]
    split
    · rfl
    · rw [ih (n / 10) (digitChar (n % 10) :: acc), ih (n / 10) [digitChar (n % 10)]]
      simp

lemma natDigitsGo_extra : ∀ (n fuel₁ fuel₂ : Nat), n < fuel₁ → n < fuel₂ →
    natDigitsGo fuel₁ n [] = natDigitsGo fuel₂ n [] := by
  intro n
  induction n using Nat.strong_induction_on with
  | _ n ih =>
    intro fuel₁ fuel₂ h₁ h₂
    cases fuel₁ with
    | zero => omega
    | succ f₁ =>
      cases fuel₂ with
      | zero => omega
      | succ f₂ =>
        simp only [natDigitsGo]
        split
        · rfl
        · rename_i hn
          rw [natDigitsGo_acc f₁, natDigitsGo_acc f₂,
            ih (n / 10) (by omega) f₁ f₂ (by omega) (by omega)]

lemma natDigitsGo_succ (fuel n : Nat) (acc : List Char) :
    natDigitsGo (fuel + 1) n acc =
      if n < 10 then digitChar n :: acc
      else natDigitsGo fuel (n / 10) (digitChar (n % 10) :: acc) := rfl

lemma natDigits_eq (n : Nat) : natDigits n =
    if n < 10 then [digitChar n] else natDigits (n / 10) ++ [digitChar (n % 10)] := by
  show natDigitsGo (n + 1) n [] = _
  rw [natDigitsGo_succ]
  by_cases h : n < 10
  · rw [if_pos h, if_pos h]
  · rw [if_neg h, if_neg h, natDigitsGo_acc,
      natDigitsGo_extra (n / 10) n (n / 10 + 1) (by omega) (by omega)]
    rfl

lemma digitChar_isDigit (n : Nat) (h : n < 10) : (digitChar n).isDigit = true := by
  interval_cases n <;> decide

lemma digitChar_toNat (n : Nat) (h : n < 10) : (digitChar n).toNat = 48 + n := by
  interval_cases n <;> decide

lemma natDigits_cons (n : Nat) : ∃ c t, natDigits n = c :: t ∧ c.isDigit = true := by
  induction n using Nat.strong_induction_on with
  | _ n ih =>
    rw [natDigits_eq]
    split
    · rename_i h
      exact ⟨digitChar n, [], rfl, digitChar_isDigit n h⟩
    · rename_i hn
      obtain ⟨c, t, he, hd⟩ := ih (n / 10) (by omega)
      exact ⟨c, t ++ [digitChar (n % 10)], by rw [he]; rfl, hd⟩

lemma parseDigitsRun_stop (l : List Char) (acc : Nat) (h : digitSafe l) :
    parseDigitsRun l acc = (acc, l) := by
  cases l with
  | nil => rfl
  | cons c cs =>
    have hc : c.isDigit = false := h
    simp [parseDigitsRun, hc]

lemma parseDigitsRun_natDigits (n : Nat) : ∀ (acc : Nat) (rest : List Char),
    parseDigitsRun (natDigits n ++ rest) acc =
      parseDigitsRun rest (acc * 10 ^ (natDigits n).length + n) := by
  induction n using Nat.strong_induction_on with
  | _ n ih =>
    intro acc rest
    by_cases h : n < 10
    · rw [natDigits_eq, if_pos h]
      simp only [List.cons_append, List.nil_append, parseDigitsRun,
        digitChar_isDigit n h, if_true, List.length_cons, List.length_nil]
      rw [digitChar_toNat n h, pow_one]
      congr 1
      omega
    · rw [natDigits_eq, if_neg h, List.append_assoc, List.singleton_append,
        ih (n / 10) (by omega)]
      have hd : (digitChar (n % 10)).isDigit = true := digitChar_isDigit _ (by omega)
      simp only [parseDigitsRun, hd, if_true]
      rw [digitChar_toNat _ (by omega)]
      have hlen : (natDigits (n / 10) ++ [digitChar (n % 10)]).length
          = (natDigits (n / 10)).length + 1 := by simp
      rw [hlen]
      congr 1
      have hsub : 48 + n % 10 - 48 = n % 10 := by omega
      rw [hsub, pow_succ]
      have h2 : (acc * 10 ^ (natDigits (n / 10)).length + n / 10) * 10 + n % 10
          = acc * (10 ^ (natDigits (n / 10)).length * 10) + (n / 10 * 10 + n % 10) := by
        ring
      rw [h2]
      congr 1
      omega

lemma parseNatLit_natDigits (n : Nat) (rest : List Char) (h : digitSafe rest) :
    parseNatLit (natDigits n ++ rest) = some (n, rest) := by
  obtain ⟨c, t, he, hd⟩ := natDigits_cons n
  rw [he, List.cons_append]
  simp only [parseNatLit, hd, if_true]
  rw [show (c :: (t ++ rest)) = ((c :: t) ++ rest) from rfl, ← he,
    parseDigitsRun_natDigits, parseDigitsRun_stop _ _ h]
  simp

lemma parseIntLit_intChars (n : Int) (rest : List Char) (h : digitSafe rest) :
    parseIntLit (intChars n ++ rest) = some (n, rest) := by
  cases n with
  | ofNat m =>
    obtain ⟨c, t, he, hd⟩ := natDigits_cons m
    have hcm : c ≠ '-' := by rintro rfl; exact absurd hd (by decide)
    show parseIntLit (natDigits m ++ rest) = some (Int.ofNat m, rest)
    rw [he, List.cons_append]
    simp only [parseIntLit, if_neg hcm]
    rw [show (c :: (t ++ rest)) = ((c :: t) ++ rest) from rfl, ← he,
      parseNatLit_natDigits m rest h]
    rfl
  | negSucc m =>
    show parseIntLit ('-' :: (natDigits (m + 1) ++ rest)) = some (Int.negSucc m, rest)
    simp only [parseIntLit, if_pos rfl]
    rw [parseNatLit_natDigits (m + 1) rest h]
    simp [Int.negSucc_eq]

lemma hexVal_hexDigitChar (d : Nat) (h : d < 16) : hexVal (hexDigitChar d) = some d := by
  interval_cases d <;> decide

lemma psb_close (l : List Char) : parseStringBody ('"' :: l) = some ([], l) := by
  rw [parseStringBody.eq_def]; simp

lemma psb_esc_quote (l : List Char) :
    parseStringBody ('\\' :: '"' :: l) =
      (parseStringBody l).map (fun p => ('"' :: p.1, p.2)) := by
  rw [parseStringBody.eq_def]; simp

lemma psb_esc_backslash (l : List Char) :
    parseStringBody ('\\' :: '\\' :: l) =
      (parseStringBody l).map (fun p => ('\\' :: p.1, p.2)) := by
  rw [parseStringBody.eq_def]; simp

lemma psb_esc_n (l : List Char) :
    parseStringBody ('\\' :: 'n' :: l) =
      (parseStringBody l).map (fun p => ('\n' :: p.1, p.2)) := by
  rw [parseStringBody.eq_def]; simp

lemma psb_esc_t (l : List Char) :
    parseStringBody ('\\' :: 't' :: l) =
      (parseStringBody l).map (fun p => ('\t' :: p.1, p.2)) := by
  rw [parseStringBody.eq_def]; simp

lemma psb_esc_r (l : List Char) :
    parseStringBody ('\\' :: 'r' :: l) =
      (parseStringBody l).map (fun p => ('\r' :: p.1, p.2)) := by
  rw [parseStringBody.eq_def]; simp

lemma psb_esc_b (l : List Char) :
    parseStringBody ('\\' :: 'b' :: l) =
      (parseStringBody l).map (fun p => ('\x08' :: p.1, p.2)) := by
  rw [parseStringBody.eq_def]; simp

lemma psb_esc_f (l : List Char) :
    parseStringBody ('\\' :: 'f' :: l) =
      (parseStringBody l).map (fun p => ('\x0c' :: p.1, p.2)) := by
  rw [parseStringBody.eq_def]; simp

lemma psb_esc_u (x y : Char) (l : List Char) (a b : Nat)
    (hx : hexVal x = some a) (hy : hexVal y = some b) :
    parseStringBody ('\\' :: 'u' :: '0' :: '0' :: x :: y :: l) =
      (parseStringBody l).map (fun p => (Char.ofNat (16 * a + b) :: p.1, p.2)) := by
  have h0 : hexVal '0' = some 0 := rfl
  rw [parseStringBody.eq_def]
  simp [hx, hy, h0]

lemma psb_plain (c : Char) (l : List Char) (h1 : c ≠ '"') (h2 : c ≠ '\\') :
    parseStringBody (c :: l) = (parseStringBody l).map (fun p => (c :: p.1, p.2)) := by
  rw [parseStringBody.eq_def]
  simp [h1, h2]

lemma parseStringBody_escapeChars : ∀ (l rest : List Char),
    parseStringBody (escapeChars l ++ ('"' :: rest)) = some (l, rest)
  | [], rest => by
    show parseStringBody ([] ++ ('"' :: rest)) = _
    rw [List.nil_append, psb_close]
  | c :: cs, rest => by
    show parseStringBody ((escapeChar c ++ escapeChars cs) ++ ('"' :: rest)) = _
    rw [List.append_assoc]
    by_cases h1 : c = '"'
    · subst h1
      rw [show escapeChar '"' = ['\\', '"'] from rfl]
      show parseStringBody ('\\' :: '"' :: (escapeChars cs ++ ('"' :: rest))) = _
      rw [psb_esc_quote, parseStringBody_escapeChars cs rest]
      rfl
    · by_cases h2 : c = '\\'
      · subst h2
        rw [show escapeChar '\\' = ['\\', '\\'] from rfl]
        show parseStringBody ('\\' :: '\\' :: (escapeChars cs ++ ('"' :: rest))) = _
        rw [psb_esc_backslash, parseStringBody_escapeChars cs rest]
        rfl
      · by_cases h3 : c = '\n'
        · subst h3
          rw [show escapeChar '\n' = ['\\', 'n'] from rfl]
          show parseStringBody ('\\' :: 'n' :: (escapeChars cs ++ ('"' :: rest))) = _
          rw [psb_esc_n, parseStringBody_escapeChars cs rest]
          rfl
        · by_cases h4 : c = '\t'
          · subst h4
            rw [show escapeChar '\t' = ['\\', 't'] from rfl]
            show parseStringBody ('\\' :: 't' :: (escapeChars cs ++ ('"' :: rest))) = _
            rw [psb_esc_t, parseStringBody_escapeChars cs rest]
            rfl
          · by_cases h5 : c = '\r'
            · subst h5
              rw [show escapeChar '\r' = ['\\', 'r'] from rfl]
              show parseStringBody ('\\' :: 'r' :: (escapeChars cs ++ ('"' :: rest))) = _
              rw [psb_esc_r, parseStringBody_escapeChars cs rest]
              rfl
            · by_cases h6 : c = '\x08'
              · subst h6
                rw [show escapeChar '\x08' = ['\\', 'b'] from rfl]
                show parseStringBody ('\\' :: 'b' :: (escapeChars cs ++ ('"' :: rest))) = _
                rw [psb_esc_b, parseStringBody_escapeChars cs rest]
                rfl
              · by_cases h7 : c = '\x0c'
                · subst h7
                  rw [show escapeChar '\x0c' = ['\\', 'f'] from rfl]
                  show parseStringBody ('\\' :: 'f' :: (escapeChars cs ++ ('"' :: rest))) = _
                  rw [psb_esc_f, parseStringBody_escapeChars cs rest]
                  rfl
                · by_cases h8 : c.toNat < 32
                  · have he : escapeChar c = ['\\', 'u', '0', '0',
                        hexDigitChar (c.toNat / 16), hexDigitChar (c.toNat % 16)] := by
                      unfold escapeChar
                      rw [if_neg h1, if_neg h2, if_neg h3, if_neg h4, if_neg h5,
                        if_neg h6, if_neg h7, if_pos h8]
                    rw [he]
                    show parseStringBody ('\\' :: 'u' :: '0' :: '0' ::
                        hexDigitChar (c.toNat / 16) :: hexDigitChar (c.toNat % 16) ::
                        (escapeChars cs ++ ('"' :: rest))) = _
                    rw [psb_esc_u _ _ _ _ _
                        (hexVal_hexDigitChar (c.toNat / 16) (by omega))
                        (hexVal_hexDigitChar (c.toNat % 16) (by omega)),
                      parseStringBody_escapeChars cs rest]
                    have hmod : 16 * (c.toNat / 16) + c.toNat % 16 = c.toNat := by omega
                    rw [hmod, Char.ofNat_toNat]
                    rfl
                  · have he : escapeChar c = [c] := by
                      unfold escapeChar
                      rw [if_neg h1, if_neg h2, if_neg h3, if_neg h4, if_neg h5,
                        if_neg h6, if_neg h7, if_neg h8]
                    rw [he]
                    show parseStringBody (c :: (escapeChars cs ++ ('"' :: rest))) = _
                    rw [psb_plain c _ h1 h2, parseStringBody_escapeChars cs rest]
                    rfl

lemma natDigits_ne_nil (n : Nat) : natDigits n ≠ [] := by
  obtain ⟨c, t, he, _⟩ := natDigits_cons n
  rw [he]
  exact List.cons_ne_nil c t

lemma ne_of_isDigit (c d : Char) (h : c.isDigit = true) (hd : d.isDigit = false) :
    c ≠ d := by
  rintro rfl
  rw [h] at hd
  cases hd

lemma isWsChar_eq_false_of_isDigit (c : Char) (h : c.isDigit = true) :
    isWsChar c = false := by
  have h1 : c ≠ ' ' := ne_of_isDigit c ' ' h (by decide)
  have h2 : c ≠ '\n' := ne_of_isDigit c '\n' h (by decide)
  have h3 : c ≠ '\t' := ne_of_isDigit c '\t' h (by decide)
  have h4 : c ≠ '\r' := ne_of_isDigit c '\r' h (by decide)
  simp [isWsChar, h1, h2, h3, h4]

lemma dumpJ_cons (lvl : Nat) (j : J) :
    ∃ c t, dumpJ lvl j = c :: t ∧ isWsChar c = false ∧ c ≠ ']' ∧ c ≠ rbrace := by
  cases j with
  | jstr s => exact ⟨'"', _, rfl, by decide, by decide, by decide⟩
  | jint n =>
    cases n with
    | ofNat m =>
      obtain ⟨c, t, he, hd⟩ := natDigits_cons m
      refine ⟨c, t, ?_, isWsChar_eq_false_of_isDigit c hd,
        ne_of_isDigit c ']' hd (by decide), ne_of_isDigit c rbrace hd (by decide)⟩
      show intChars (Int.ofNat m) = c :: t
      rw [show intChars (Int.ofNat m) = natDigits m from rfl, he]
    | negSucc m => exact ⟨'-', _, rfl, by decide, by decide, by decide⟩
  | jarr xs =>
    cases xs with
    | jnil => exact ⟨'[', _, rfl, by decide, by decide, by decide⟩
    | jcons x ys => exact ⟨'[', _, rfl, by decide, by decide, by decide⟩
  | jobj kvs =>
    cases kvs with
    | onil => exact ⟨lbrace, _, rfl, by decide, by decide, by decide⟩
    | ocons k v rest => exact ⟨lbrace, _, rfl, by decide, by decide, by decide⟩

lemma skipWs_dumpJ_append (lvl : Nat) (j : J) (R : List Char) :
    skipWs (dumpJ lvl j ++ R) = dumpJ lvl j ++ R := by
  obtain ⟨c, t, he, hw, _, _⟩ := dumpJ_cons lvl j
  rw [he, List.cons_append, skipWs_not_ws _ hw]

lemma digitSafe_dumpArrRest (lvl : Nat) (xs : JList) (l : List Char) :
    digitSafe (dumpArrRest lvl xs ++ ('\n' :: l)) := by
  cases xs with
  | jnil => show ('\n').isDigit = false; decide
  | jcons x ys => show (',').isDigit = false; decide

lemma digitSafe_dumpObjRest (lvl : Nat) (kvs : JObj) (l : List Char) :
    digitSafe (dumpObjRest lvl kvs ++ ('\n' :: l)) := by
  cases kvs with
  | onil => show ('\n').isDigit = false; decide
  | ocons k v rest => show (',').isDigit = false; decide

/- Fuel accounting for the parser: the fuel needed to parse a serialized
value, array continuation or object continuation. -/
mutual

/-- Fuel needed by parseValue for one value. -/
def nvJ : J → Nat
  | .jstr _ => 1
  | .jint _ => 1
  | .jarr .jnil => 1
  | .jarr (.jcons x xs) => 1 + nvJ x + nvL xs
  | .jobj .onil => 1
  | .jobj (.ocons _ v kvs) => 1 + nvJ v + nvO kvs

/-- Fuel needed by parseArrRest for an array continuation. -/
def nvL : JList → Nat
  | .jnil => 1
  | .jcons x xs => 1 + nvJ x + nvL xs

/-- Fuel needed by parseObjRest for an object continuation. -/
def nvO : JObj → Nat
  | .onil => 1
  | .ocons _ v kvs => 1 + nvJ v + nvO kvs

end

mutual

theorem nvJ_le : ∀ (lvl : Nat) (j : J), nvJ j ≤ (dumpJ lvl j).length
  | lvl, .jstr s => by simp [dumpJ, strLit, nvJ]
  | lvl, .jint n => by
    have h := natDigits_ne_nil (match n with | .ofNat m => m | .negSucc m => m + 1)
    cases n with
    | ofNat m =>
      have hp : 0 < (natDigits m).length := List.length_pos.mpr (natDigits_ne_nil m)
      simpa [dumpJ, intChars, nvJ] using hp
    | negSucc m => simp [dumpJ, intChars, nvJ]
  | lvl, .jarr .jnil => by simp [dumpJ, nvJ]
  | lvl, .jarr (.jcons x xs) => by
    have h1 := nvJ_le (lvl + 1) x
    have h2 := nvL_le (lvl + 1) xs
    simp only [dumpJ, nvJ, List.length_cons, List.length_append]
    omega
  | lvl, .jobj .onil => by simp [dumpJ, nvJ]
  | lvl, .jobj (.ocons k v kvs) => by
    have h1 := nvJ_le (lvl + 1) v
    have h2 := nvO_le (lvl + 1) kvs
    simp only [dumpJ, nvJ, List.length_cons, List.length_append]
    omega

theorem nvL_le : ∀ (lvl : Nat) (xs : JList), nvL xs ≤ (dumpArrRest lvl xs).length + 2
  | lvl, .jnil => by simp [dumpArrRest, nvL]
  | lvl, .jcons x xs => by
    have h1 := nvJ_le lvl x
    have h2 := nvL_le lvl xs
    simp only [dumpArrRest, nvL, List.length_cons, List.length_append]
    omega

theorem nvO_le : ∀ (lvl : Nat) (kvs : JObj), nvO kvs ≤ (dumpObjRest lvl kvs).length + 2
  | lvl, .onil => by simp [dumpObjRest, nvO]
  | lvl, .ocons k v kvs => by
    have h1 := nvJ_le lvl v
    have h2 := nvO_le lvl kvs
    simp only [dumpObjRest, nvO, List.length_cons, List.length_append]
    omega

end

lemma skipWs_ws_cons {c : Char} (l : List Char) (h : isWsChar c = true) :
    skipWs (c :: l) = skipWs l := by
  simp [skipWs, h]

lemma skipWs_idem (l : List Char) : skipWs (skipWs l) = skipWs l := by
  induction l with
  | nil => rfl
  | cons c cs ih =>
    by_cases h : isWsChar c = true
    · rw [skipWs_ws_cons cs h, ih]
    · have h2 : isWsChar c = false := by
        cases hb : isWsChar c
        · rfl
        · exact absurd hb h
      rw [skipWs_not_ws cs h2, skipWs_not_ws cs h2]

lemma parseValue_skipWs (fuel : Nat) (input : List Char) :
    parseValue fuel input = parseValue fuel (skipWs input) := by
  cases fuel with
  | zero => rfl
  | succ f =>
    rw [parseValue.eq_def]
    conv_rhs => rw [parseValue.eq_def]
    simp [skipWs_idem]

/- The round-trip theorems: parsing a serialized value, array continuation
or object continuation recovers it exactly and consumes exactly its text. -/
mutual

theorem parseValue_dumpJ : ∀ (j : J) (lvl fuel : Nat) (rest : List Char),
    nvJ j ≤ fuel → digitSafe rest →
    parseValue fuel (dumpJ lvl j ++ rest) = some (j, rest)
  | .jstr s => by
    intro lvl fuel rest hf hrest
    cases fuel with
    | zero => simp [nvJ] at hf
    | succ f =>
      obtain ⟨sd⟩ := s
      have hsh : dumpJ lvl (.jstr ⟨sd⟩) ++ rest
          = '"' :: (escapeChars sd ++ ('"' :: rest)) := by
        show ('"' :: (escapeChars sd ++ ['"'])) ++ rest = _
        simp [List.append_assoc]
      rw [parseValue.eq_def, hsh]
      simp [skipWs_not_ws, isWsChar, parseStringBody_escapeChars]
  | .jint n => by
    intro lvl fuel rest hf hrest
    cases fuel with
    | zero => simp [nvJ] at hf
    | succ f =>
      obtain ⟨c, t, he, hOr, hw, h1, h2, h3⟩ :
          ∃ c t, intChars n = c :: t
            ∧ (decide (c = '-') || c.isDigit) = true
            ∧ isWsChar c = false ∧ c ≠ '"' ∧ c ≠ '[' ∧ c ≠ lbrace := by
        cases n with
        | ofNat m =>
          obtain ⟨c, t, he, hd⟩ := natDigits_cons m
          exact ⟨c, t, he, by simp [hd], isWsChar_eq_false_of_isDigit c hd,
            ne_of_isDigit c '"' hd (by decide), ne_of_isDigit c '[' hd (by decide),
            ne_of_isDigit c lbrace hd (by decide)⟩
        | negSucc m => exact ⟨'-', _, rfl, by decide, by decide, by decide,
            by decide, by decide⟩
      have hsh : dumpJ lvl (.jint n) ++ rest = c :: (t ++ rest) := by
        show intChars n ++ rest = _
        rw [he]
        rfl
      have hil : parseIntLit (c :: (t ++ rest)) = some (n, rest) := by
        rw [show c :: (t ++ rest) = (c :: t) ++ rest from rfl, ← he,
          parseIntLit_intChars n rest hrest]
      rw [parseValue.eq_def, hsh]
      simp [skipWs_not_ws _ hw, h1, h2, h3, hOr, hil]
  | .jarr .jnil => by
    intro lvl fuel rest hf hrest
    cases fuel with
    | zero => simp [nvJ] at hf
    | succ f =>
      have hsh : dumpJ lvl (.jarr .jnil) ++ rest = '[' :: (']' :: rest) := rfl
      rw [parseValue.eq_def, hsh]
      simp [skipWs_not_ws, isWsChar]
  | .jarr (.jcons x xs) => by
    intro lvl fuel rest hf hrest
    cases fuel with
    | zero => simp [nvJ] at hf
    | succ f =>
      rw [show nvJ (.jarr (.jcons x xs)) = 1 + nvJ x + nvL xs from rfl] at hf
      have hds : digitSafe (dumpArrRest (lvl + 1) xs ++ ('\n' :: (pad lvl ++ (']' :: rest)))) :=
        digitSafe_dumpArrRest _ _ _
      have hpv : parseValue f ('\n' :: (pad (lvl + 1) ++ (dumpJ (lvl + 1) x ++
          (dumpArrRest (lvl + 1) xs ++ ('\n' :: (pad lvl ++ (']' :: rest)))))))
          = some (x, dumpArrRest (lvl + 1) xs ++ ('\n' :: (pad lvl ++ (']' :: rest)))) := by
        rw [parseValue_skipWs, skipWs_nl_pad, skipWs_dumpJ_append]
        exact parseValue_dumpJ x (lvl + 1) f _ (by omega) hds
      have hpa : parseArrRest f
          (dumpArrRest (lvl + 1) xs ++ ('\n' :: (pad lvl ++ (']' :: rest))))
          = some (xs, rest) :=
        parseArrRest_dumpArrRest xs (lvl + 1) lvl f rest (by omega)
      obtain ⟨c1, t1, he1, hw1, hne1, hne2⟩ := dumpJ_cons (lvl + 1) x
      have hskipR : skipWs ('\n' :: (pad (lvl + 1) ++ (dumpJ (lvl + 1) x ++
          (dumpArrRest (lvl + 1) xs ++ ('\n' :: (pad lvl ++ (']' :: rest)))))))
          = c1 :: (t1 ++ (dumpArrRest (lvl + 1) xs ++ ('\n' :: (pad lvl ++ (']' :: rest))))) := by
        rw [skipWs_nl_pad, skipWs_dumpJ_append, he1, List.cons_append]
      have hsh : dumpJ lvl (.jarr (.jcons x xs)) ++ rest =
          '[' :: ('\n' :: (pad (lvl + 1) ++ (dumpJ (lvl + 1) x ++
            (dumpArrRest (lvl + 1) xs ++ ('\n' :: (pad lvl ++ (']' :: rest))))))) := by
        show ('[' :: '\n' :: (pad (lvl + 1) ++ dumpJ (lvl + 1) x
            ++ dumpArrRest (lvl + 1) xs ++ '\n' :: (pad lvl ++ [']']))) ++ rest = _
        simp [List.append_assoc]
      rw [parseValue.eq_def, hsh]
      simp [skipWs_not_ws, isWsChar, hskipR, hne1, hpv, hpa]
  | .jobj .onil => by
    intro lvl fuel rest hf hrest
    cases fuel with
    | zero => simp [nvJ] at hf
    | succ f =>
      have hsh : dumpJ lvl (.jobj .onil) ++ rest = lbrace :: (rbrace :: rest) := rfl
      rw [parseValue.eq_def, hsh]
      simp [skipWs_not_ws, isWsChar, lbrace, rbrace]
  | .jobj (.ocons k v kvs) => by
    intro lvl fuel rest hf hrest
    cases fuel with
    | zero => simp [nvJ] at hf
    | succ f =>
      obtain ⟨kd⟩ := k
      rw [show nvJ (.jobj (.ocons ⟨kd⟩ v kvs)) = 1 + nvJ v + nvO kvs from rfl] at hf
      have hds : digitSafe (dumpObjRest (lvl + 1) kvs ++ ('\n' :: (pad lvl ++ (rbrace :: rest)))) :=
        digitSafe_dumpObjRest _ _ _
      have hpv : parseValue f (' ' :: (dumpJ (lvl + 1) v ++
          (dumpObjRest (lvl + 1) kvs ++ ('\n' :: (pad lvl ++ (rbrace :: rest))))))
          = some (v, dumpObjRest (lvl + 1) kvs ++ ('\n' :: (pad lvl ++ (rbrace :: rest)))) := by
        rw [parseValue_skipWs, skipWs_ws_cons _ (by decide), skipWs_dumpJ_append]
        exact parseValue_dumpJ v (lvl + 1) f _ (by omega) hds
      have hpo : parseObjRest f
          (dumpObjRest (lvl + 1) kvs ++ ('\n' :: (pad lvl ++ (rbrace :: rest))))
          = some (kvs, rest) :=
        parseObjRest_dumpObjRest kvs (lvl + 1) lvl f rest (by omega)
      have hpsb : parseStringBody (escapeChars kd ++ ('"' :: (':' :: (' ' :: (dumpJ (lvl + 1) v ++
          (dumpObjRest (lvl + 1) kvs ++ ('\n' :: (pad lvl ++ (rbrace :: rest)))))))))
          = some (kd, ':' :: (' ' :: (dumpJ (lvl + 1) v ++
            (dumpObjRest (lvl + 1) kvs ++ ('\n' :: (pad lvl ++ (rbrace :: rest))))))) :=
        parseStringBody_escapeChars kd _
      have hskipR : skipWs ('\n' :: (pad (lvl + 1) ++ ('"' :: (escapeChars kd ++ ('"' :: (':' :: (' ' ::
          (dumpJ (lvl + 1) v ++ (dumpObjRest (lvl + 1) kvs ++ ('\n' :: (pad lvl ++ (rbrace :: rest))))))))))))
          = '"' :: (escapeChars kd ++ ('"' :: (':' :: (' ' :: (dumpJ (lvl + 1) v ++
            (dumpObjRest (lvl + 1) kvs ++ ('\n' :: (pad lvl ++ (rbrace :: rest))))))))) := by
        rw [skipWs_nl_pad]
        exact skipWs_not_ws _ (by decide)
      have hsh : dumpJ lvl (.jobj (.ocons ⟨kd⟩ v kvs)) ++ rest =
          lbrace :: ('\n' :: (pad (lvl + 1) ++ ('"' :: (escapeChars kd ++ ('"' :: (':' :: (' ' ::
            (dumpJ (lvl + 1) v ++ (dumpObjRest (lvl + 1) kvs ++
              ('\n' :: (pad lvl ++ (rbrace :: rest)))))))))))) := by
        show (lbrace :: '\n' :: (pad (lvl + 1) ++ strLit ⟨kd⟩ ++ ':' :: ' ' :: dumpJ (lvl + 1) v
            ++ dumpObjRest (lvl + 1) kvs ++ '\n' :: (pad lvl ++ [rbrace]))) ++ rest = _
        simp [strLit, List.append_assoc]
      have ha1 : ¬(lbrace = '"') := by decide
      have ha2 : ¬(lbrace = '[') := by decide
      have ha3 : ¬(('"' : Char) = rbrace) := by decide
      have hw0 : isWsChar lbrace = false := by decide
      rw [parseValue.eq_def, hsh]
      simp [skipWs_not_ws _ hw0, skipWs_not_ws, isWsChar, ha1, ha2, ha3, hskipR,
        hpsb, hpv, hpo]

theorem parseArrRest_dumpArrRest : ∀ (xs : JList) (ilvl lvl fuel : Nat) (rest : List Char),
    nvL xs ≤ fuel →
    parseArrRest fuel (dumpArrRest ilvl xs ++ ('\n' :: (pad lvl ++ (']' :: rest))))
      = some (xs, rest)
  | .jnil => by
    intro ilvl lvl fuel rest hf
    cases fuel with
    | zero => simp [nvL] at hf
    | succ f =>
      have hsh : dumpArrRest ilvl .jnil ++ ('\n' :: (pad lvl ++ (']' :: rest)))
          = '\n' :: (pad lvl ++ (']' :: rest)) := rfl
      have hskip : skipWs ('\n' :: (pad lvl ++ (']' :: rest))) = ']' :: rest := by
        rw [skipWs_nl_pad]
        exact skipWs_not_ws _ (by decide)
      rw [parseArrRest.eq_def, hsh]
      simp [hskip]
  | .jcons x xs => by
    intro ilvl lvl fuel rest hf
    cases fuel with
    | zero => simp [nvL] at hf
    | succ f =>
      rw [show nvL (.jcons x xs) = 1 + nvJ x + nvL xs from rfl] at hf
      have hds : digitSafe (dumpArrRest ilvl xs ++ ('\n' :: (pad lvl ++ (']' :: rest)))) :=
        digitSafe_dumpArrRest _ _ _
      have hpv : parseValue f ('\n' :: (pad ilvl ++ (dumpJ ilvl x ++
          (dumpArrRest ilvl xs ++ ('\n' :: (pad lvl ++ (']' :: rest)))))))
          = some (x, dumpArrRest ilvl xs ++ ('\n' :: (pad lvl ++ (']' :: rest)))) := by
        rw [parseValue_skipWs, skipWs_nl_pad, skipWs_dumpJ_append]
        exact parseValue_dumpJ x ilvl f _ (by omega) hds
      have hpa : parseArrRest f
          (dumpArrRest ilvl xs ++ ('\n' :: (pad lvl ++ (']' :: rest))))
          = some (xs, rest) :=
        parseArrRest_dumpArrRest xs ilvl lvl f rest (by omega)
      have hsh : dumpArrRest ilvl (.jcons x xs) ++ ('\n' :: (pad lvl ++ (']' :: rest))) =
          ',' :: ('\n' :: (pad ilvl ++ (dumpJ ilvl x ++
            (dumpArrRest ilvl xs ++ ('\n' :: (pad lvl ++ (']' :: rest))))))) := by
        show (',' :: '\n' :: (pad ilvl ++ dumpJ ilvl x ++ dumpArrRest ilvl xs))
            ++ ('\n' :: (pad lvl ++ (']' :: rest))) = _
        simp [List.append_assoc]
      rw [parseArrRest.eq_def, hsh]
      simp [skipWs_not_ws, isWsChar, hpv, hpa]

theorem parseObjRest_dumpObjRest : ∀ (kvs : JObj) (ilvl lvl fuel : Nat) (rest : List Char),
    nvO kvs ≤ fuel →
    parseObjRest fuel (dumpObjRest ilvl kvs ++ ('\n' :: (pad lvl ++ (rbrace :: rest))))
      = some (kvs, rest)
  | .onil => by
    intro ilvl lvl fuel rest hf
    cases fuel with
    | zero => simp [nvO] at hf
    | succ f =>
      have hsh : dumpObjRest ilvl .onil ++ ('\n' :: (pad lvl ++ (rbrace :: rest)))
          = '\n' :: (pad lvl ++ (rbrace :: rest)) := rfl
      have hskip : skipWs ('\n' :: (pad lvl ++ (rbrace :: rest))) = rbrace :: rest := by
        rw [skipWs_nl_pad]
        exact skipWs_not_ws _ (by decide)
      rw [parseObjRest.eq_def, hsh]
      simp [hskip]
  | .ocons k v kvs => by
    intro ilvl lvl fuel rest hf
    cases fuel with
    | zero => simp [nvO] at hf
    | succ f =>
      obtain ⟨kd⟩ := k
      rw [show nvO (.ocons ⟨kd⟩ v kvs) = 1 + nvJ v + nvO kvs from rfl] at hf
      have hds : digitSafe (dumpObjRest ilvl kvs ++ ('\n' :: (pad lvl ++ (rbrace :: rest)))) :=
        digitSafe_dumpObjRest _ _ _
      have hpv : parseValue f (' ' :: (dumpJ ilvl v ++
          (dumpObjRest ilvl kvs ++ ('\n' :: (pad lvl ++ (rbrace :: rest))))))
          = some (v, dumpObjRest ilvl kvs ++ ('\n' :: (pad lvl ++ (rbrace :: rest)))) := by
        rw [parseValue_skipWs, skipWs_ws_cons _ (by decide), skipWs_dumpJ_append]
        exact parseValue_dumpJ v ilvl f _ (by omega) hds
      have hpo : parseObjRest f
          (dumpObjRest ilvl kvs ++ ('\n' :: (pad lvl ++ (rbrace :: rest))))
          = some (kvs, rest) :=
        parseObjRest_dumpObjRest kvs ilvl lvl f rest (by omega)
      have hpsb : parseStringBody (escapeChars kd ++ ('"' :: (':' :: (' ' :: (dumpJ ilvl v ++
          (dumpObjRest ilvl kvs ++ ('\n' :: (pad lvl ++ (rbrace :: rest)))))))))
          = some (kd, ':' :: (' ' :: (dumpJ ilvl v ++
            (dumpObjRest ilvl kvs ++ ('\n' :: (pad lvl ++ (rbrace :: rest))))))) :=
        parseStringBody_escapeChars kd _
      have hskipR : skipWs ('\n' :: (pad ilvl ++ ('"' :: (escapeChars kd ++ ('"' :: (':' :: (' ' ::
          (dumpJ ilvl v ++ (dumpObjRest ilvl kvs ++ ('\n' :: (pad lvl ++ (rbrace :: rest))))))))))))
          = '"' :: (escapeChars kd ++ ('"' :: (':' :: (' ' :: (dumpJ ilvl v ++
            (dumpObjRest ilvl kvs ++ ('\n' :: (pad lvl ++ (rbrace :: rest))))))))) := by
        rw [skipWs_nl_pad]
        exact skipWs_not_ws _ (by decide)
      have hsh : dumpObjRest ilvl (.ocons ⟨kd⟩ v kvs) ++ ('\n' :: (pad lvl ++ (rbrace :: rest))) =
          ',' :: ('\n' :: (pad ilvl ++ ('"' :: (escapeChars kd ++ ('"' :: (':' :: (' ' ::
            (dumpJ ilvl v ++ (dumpObjRest ilvl kvs ++
              ('\n' :: (pad lvl ++ (rbrace :: rest)))))))))))) := by
        show (',' :: '\n' :: (pad ilvl ++ strLit ⟨kd⟩ ++ ':' :: ' ' :: dumpJ ilvl v
            ++ dumpObjRest ilvl kvs)) ++ ('\n' :: (pad lvl ++ (rbrace :: rest))) = _
        simp [strLit, List.append_assoc]
      have ha3 : ¬(('"' : Char) = rbrace) := by decide
      have ha4 : ¬((',' : Char) = rbrace) := by decide
      rw [parseObjRest.eq_def, hsh]
      simp [skipWs_not_ws, isWsChar, ha3, ha4, hskipR, hpsb, hpv, hpo]

end

theorem parseJsonChars_dumpJ (j : J) : parseJsonChars (dumpJ 0 j) = some j := by
  unfold parseJsonChars
  have hle : nvJ j ≤ (dumpJ 0 j).length + 1 := le_trans (nvJ_le 0 j) (by omega)
  have h := parseValue_dumpJ j 0 ((dumpJ 0 j).length + 1) [] hle trivial
  rw [List.append_nil] at h
  rw [h]
  rfl

lemma jlistLength_resultsToJList (rs : List FormattedResult) :
    jlistLength (resultsToJList rs) = rs.length := by
  induction rs with
  | nil => rfl
  | cons r rs ih => simp [resultsToJList, jlistLength, ih]

lemma escapeChar_nonascii (c : Char) (h : 128 ≤ c.toNat) : escapeChar c = [c] := by
  have h1 : c ≠ '"' := by rintro rfl; exact absurd h (by decide)
  have h2 : c ≠ '\\' := by rintro rfl; exact absurd h (by decide)
  have h3 : c ≠ '\n' := by rintro rfl; exact absurd h (by decide)
  have h4 : c ≠ '\t' := by rintro rfl; exact absurd h (by decide)
  have h5 : c ≠ '\r' := by rintro rfl; exact absurd h (by decide)
  have h6 : c ≠ '\x08' := by rintro rfl; exact absurd h (by decide)
  have h7 : c ≠ '\x0c' := by rintro rfl; exact absurd h (by decide)
  have h8 : ¬(c.toNat < 32) := by omega
  unfold escapeChar
  rw [if_neg h1, if_neg h2, if_neg h3, if_neg h4, if_neg h5, if_neg h6,
    if_neg h7, if_neg h8]

lemma escapeChars_eq_self (l : List Char) (h : ∀ c ∈ l, escapeChar c = [c]) :
    escapeChars l = l := by
  induction l with
  | nil => rfl
  | cons c cs ih =>
    show escapeChar c ++ escapeChars cs = c :: cs
    rw [h c (by simp), ih (fun d hd => h d (by simp [hd]))]
    rfl

/-- C7: for a non-empty normalized result list, JSON mode prints exactly the
serialized output object; parsing that emitted text recovers the document,
whose query field is the original query verbatim and whose total field equals
the length of its results array; characters at or above 0x80 are never
escaped, a query free of escapes appears literally in the output text, and
the output begins with the two-space-per-level indented layout. -/
theorem claim_C7_json_roundtrip (query : String) (results : List FormattedResult)
    (hne : results ≠ []) :
    renderResults "json" query results = .ok [dumpsOutput query results]
      ∧ parseJson (dumpsOutput query results) = some (outputDoc query results)
      ∧ jLookup (outputDoc query results) "query" = some (.jstr query)
      ∧ ((jLookup (outputDoc query results) "web").bind
            (fun w => jLookup w "results"))
          = some (.jarr (resultsToJList results))
      ∧ jLookup (outputDoc query results) "total"
          = some (.jint (results.length : Int))
      ∧ jlistLength (resultsToJList results) = results.length
      ∧ (∀ c : Char, 128 ≤ c.toNat → escapeChar c = [c])
      ∧ ((∀ c ∈ query.data, escapeChar c = [c]) →
          ∃ l r, (dumpsOutput query results).data = l ++ (query.data ++ r))
      ∧ (∃ restP, (dumpsOutput query results).data =
          lbrace :: ('\n' :: (pad 1 ++ (strLit "web" ++ (':' :: (' ' ::
            (lbrace :: ('\n' :: (pad 2 ++ (strLit "results" ++ (':' :: (' ' ::
              ('[' :: restP))))))))))))) := by
  have hr1 : renderResults "json" query results = .ok [dumpsOutput query results] := by
    obtain ⟨a, as, hcons⟩ := List.exists_cons_of_ne_nil hne
    subst hcons
    simp [renderResults]
  have hdata : (dumpsOutput query results).data = dumpJ 0 (outputDoc query results) := rfl
  have hparse : parseJson (dumpsOutput query results) = some (outputDoc query results) := by
    show parseJsonChars (dumpJ 0 (outputDoc query results)) = _
    exact parseJsonChars_dumpJ _
  refine ⟨hr1, hparse, rfl, rfl, rfl, jlistLength_resultsToJList results,
    escapeChar_nonascii, ?_, ?_⟩
  · intro hq
    have hesc : escapeChars query.data = query.data := escapeChars_eq_self _ hq
    refine ⟨lbrace :: ('\n' :: (pad 1 ++ (strLit "web" ++ (':' :: (' ' ::
        (dumpJ 1 (.jobj (.ocons "results" (.jarr (resultsToJList results)) .onil)) ++
          (',' :: ('\n' :: (pad 1 ++ (strLit "query" ++ (':' :: (' ' :: ['"'])))))))))))),
      '"' :: (dumpObjRest 1 (.ocons "total" (.jint (results.length : Int)) .onil) ++
        ('\n' :: (pad 0 ++ [rbrace]))), ?_⟩
    rw [hdata]
    show lbrace :: '\n' :: (pad 1 ++ strLit "web" ++ ':' :: ' ' ::
        dumpJ 1 (.jobj (.ocons "results" (.jarr (resultsToJList results)) .onil))
        ++ dumpObjRest 1 (.ocons "query" (.jstr query)
            (.ocons "total" (.jint (results.length : Int)) .onil))
        ++ '\n' :: (pad 0 ++ [rbrace])) = _
    show lbrace :: '\n' :: (pad 1 ++ strLit "web" ++ ':' :: ' ' ::
        dumpJ 1 (.jobj (.ocons "results" (.jarr (resultsToJList results)) .onil))
        ++ (',' :: '\n' :: (pad 1 ++ strLit "query" ++ ':' :: ' ' ::
            ('"' :: (escapeChars query.data ++ ['"']))
          ++ dumpObjRest 1 (.ocons "total" (.jint (results.length : Int)) .onil)))
        ++ '\n' :: (pad 0 ++ [rbrace])) = _
    rw [hesc]
    simp [List.append_assoc]
  · obtain ⟨tP, htP⟩ : ∃ t, dumpJ 2 (.jarr (resultsToJList results)) = '[' :: t := by
      cases resultsToJList results with
      | jnil => exact ⟨_, rfl⟩
      | jcons a b => exact ⟨_, rfl⟩
    refine ⟨tP ++ (('\n' :: (pad 1 ++ [rbrace])) ++
      (dumpObjRest 1 (.ocons "query" (.jstr query)
          (.ocons "total" (.jint (results.length : Int)) .onil)) ++
        ('\n' :: (pad 0 ++ [rbrace])))), ?_⟩
    rw [hdata]
    show lbrace :: '\n' :: (pad 1 ++ strLit "web" ++ ':' :: ' ' ::
        (lbrace :: '\n' :: (pad 2 ++ strLit "results" ++ ':' :: ' ' ::
          dumpJ 2 (.jarr (resultsToJList results)) ++ dumpObjRest 2 .onil
          ++ '\n' :: (pad 1 ++ [rbrace])))
        ++ dumpObjRest 1 (.ocons "query" (.jstr query)
            (.ocons "total" (.jint (results.length : Int)) .onil))
        ++ '\n' :: (pad 0 ++ [rbrace])) = _
    rw [htP]
    simp [dumpObjRest, List.append_assoc]

/-- C7 witness: a one-record result list with non-ASCII strings. -/
theorem claim_C7_json_roundtrip_witness :
    renderResults "json" "横店 搜索" [⟨.pyStr "标题", .pyStr "https://www.baidu.com/x",
        .pyStr "摘要", .pyInt 1, .pyStr "百度"⟩] =
      .ok [dumpsOutput "横店 搜索" [⟨.pyStr "标题", .pyStr "https://www.baidu.com/x",
        .pyStr "摘要", .pyInt 1, .pyStr "百度"⟩]]
      ∧ parseJson (dumpsOutput "横店 搜索" [⟨.pyStr "标题", .pyStr "https://www.baidu.com/x",
          .pyStr "摘要", .pyInt 1, .pyStr "百度"⟩])
        = some (outputDoc "横店 搜索" [⟨.pyStr "标题", .pyStr "https://www.baidu.com/x",
          .pyStr "摘要", .pyInt 1, .pyStr "百度"⟩])
      ∧ jLookup (outputDoc "横店 搜索" [⟨.pyStr "标题", .pyStr "https://www.baidu.com/x",
          .pyStr "摘要", .pyInt 1, .pyStr "百度"⟩]) "query" = some (.jstr "横店 搜索")
      ∧ ((jLookup (outputDoc "横店 搜索" [⟨.pyStr "标题", .pyStr "https://www.baidu.com/x",
          .pyStr "摘要", .pyInt 1, .pyStr "百度"⟩]) "web").bind
            (fun w => jLookup w "results"))
          = some (.jarr (resultsToJList [⟨.pyStr "标题", .pyStr "https://www.baidu.com/x",
            .pyStr "摘要", .pyInt 1, .pyStr "百度"⟩]))
      ∧ jLookup (outputDoc "横店 搜索" [⟨.pyStr "标题", .pyStr "https://www.baidu.com/x",
          .pyStr "摘要", .pyInt 1, .pyStr "百度"⟩]) "total"
        = some (.jint (([⟨.pyStr "标题", .pyStr "https://www.baidu.com/x",
          .pyStr "摘要", .pyInt 1, .pyStr "百度"⟩] : List FormattedResult).length : Int))
      ∧ jlistLength (resultsToJList [⟨.pyStr "标题", .pyStr "https://www.baidu.com/x",
          .pyStr "摘要", .pyInt 1, .pyStr "百度"⟩])
        = ([⟨.pyStr "标题", .pyStr "https://www.baidu.com/x",
          .pyStr "摘要", .pyInt 1, .pyStr "百度"⟩] : List FormattedResult).length
      ∧ (∀ c : Char, 128 ≤ c.toNat → escapeChar c = [c])
      ∧ ((∀ c ∈ ("横店 搜索" : String).data, escapeChar c = [c]) →
          ∃ l r, (dumpsOutput "横店 搜索" [⟨.pyStr "标题", .pyStr "https://www.baidu.com/x",
            .pyStr "摘要", .pyInt 1, .pyStr "百度"⟩]).data
            = l ++ (("横店 搜索" : String).data ++ r))
      ∧ (∃ restP, (dumpsOutput "横店 搜索" [⟨.pyStr "标题", .pyStr "https://www.baidu.com/x",
          .pyStr "摘要", .pyInt 1, .pyStr "百度"⟩]).data =
          lbrace :: ('\n' :: (pad 1 ++ (strLit "web" ++ (':' :: (' ' ::
            (lbrace :: ('\n' :: (pad 2 ++ (strLit "results" ++ (':' :: (' ' ::
              ('[' :: restP))))))))))))) :=
  claim_C7_json_roundtrip "横店 搜索" _ (List.cons_ne_nil _ _)

/-- Abstract values reaching the renderer from the search wrapper: a string,
or the falsy integer zero that the renderer skips without slicing. -/
def goodAbstract (v : PyVal) : Prop := (∃ s, v = .pyStr s) ∨ v = .pyInt 0

lemma normalizeRecord_goodAbstract (r : RawRecord) (f : FormattedResult)
    (h : normalizeRecord r = .ok f) : goodAbstract f.abstract := by
  unfold normalizeRecord at h
  split at h
  · simp at h
  · rename_i abst habst
    split at h
    · simp at h
    · rename_i url hurl
      cases h
      show goodAbstract abst
      by_cases ht : pyTruthy (r.abstract.getD (.pyStr "")) = true
      · rw [if_pos ht] at habst
        cases hv : r.abstract.getD (.pyStr "") with
        | pyStr s =>
          rw [hv] at habst
          simp only [pyStrip, Except.ok.injEq] at habst
          exact Or.inl ⟨_, habst.symm⟩
        | pyInt n =>
          rw [hv] at habst
          simp [pyStrip] at habst
      · rw [if_neg ht] at habst
        simp only [Except.ok.injEq] at habst
        subst habst
        cases hv : r.abstract.getD (.pyStr "") with
        | pyStr s => exact Or.inl ⟨_, rfl⟩
        | pyInt n =>
          right
          rw [hv] at ht
          simp [pyTruthy] at ht
          rw [ht]


lemma formatResults_goodAbstract : ∀ (rs : List RawRecord) (fs : List FormattedResult),
    formatResults rs = .ok fs → ∀ f ∈ fs, goodAbstract f.abstract
  | [], fs => by
    intro h f hf
    simp only [formatResults, Except.ok.injEq] at h
    subst h
    simp at hf
  | r :: rs, fs => by
    intro h f hf
    simp only [formatResults] at h
    split at h
    · simp at h
    · rename_i f1 hf1
      split at h
      · simp at h
      · rename_i fs1 hfs1
        simp only [Except.ok.injEq] at h
        subst h
        rcases List.mem_cons.mp hf with rfl | hmem
        · exact normalizeRecord_goodAbstract r f hf1
        · exact formatResults_goodAbstract rs fs1 hfs1 f hmem

lemma search_goodAbstract (gw : Except String (List RawRecord)) :
    ∀ f ∈ (search gw).returned, goodAbstract f.abstract := by
  cases gw with
  | error e => simp [search]
  | ok rs =>
    have hs : search (.ok rs) = (match formatResults rs with
        | .error e => ⟨["搜索出错: " ++ e], []⟩
        | .ok fs => ⟨[], fs⟩) := rfl
    cases hfr : formatResults rs with
    | error e =>
      rw [hs, hfr]
      simp
    | ok fs =>
      rw [hs, hfr]
      exact formatResults_goodAbstract rs fs hfr

lemma renderRecord_ok (i : Nat) (f : FormattedResult) (h : goodAbstract f.abstract) :
    ∃ lines, renderRecord i f = .ok lines := by
  unfold renderRecord renderAbstract
  rcases h with ⟨s, hs⟩ | hz
  · rw [hs]
    by_cases h0 : s = ""
    · subst h0
      exact ⟨_, rfl⟩
    · have htr : pyTruthy (.pyStr s) = true := by
        simp [pyTruthy]
        exact h0
      rw [htr]
      simp only [if_true, pySlice, pyLen]
      exact ⟨_, rfl⟩
  · rw [hz]
    exact ⟨_, rfl⟩

lemma renderText_ok : ∀ (i : Nat) (fs : List FormattedResult),
    (∀ f ∈ fs, goodAbstract f.abstract) → ∃ lines, renderText i fs = .ok lines
  | _, [] => fun _ => ⟨[], rfl⟩
  | i, f :: fs => fun h => by
    obtain ⟨l1, hl1⟩ := renderRecord_ok i f (h f (by simp))
    obtain ⟨l2, hl2⟩ := renderText_ok (i + 1) fs (fun g hg => h g (by simp [hg]))
    refine ⟨l1 ++ l2, ?_⟩
    simp only [renderText]
    rw [hl1, hl2]

lemma renderResults_ok (outputMode query : String) (fs : List FormattedResult)
    (h : ∀ f ∈ fs, goodAbstract f.abstract) :
    ∃ lines, renderResults outputMode query fs = .ok lines := by
  unfold renderResults
  by_cases he : fs.isEmpty = true
  · rw [if_pos he]
    exact ⟨_, rfl⟩
  · rw [if_neg he]
    by_cases hm : outputMode = "json"
    · rw [if_pos hm]
      exact ⟨_, rfl⟩
    · rw [if_neg hm]
      exact renderText_ok 1 fs h

lemma parseValue_bad_head (fuel : Nat) (l : List Char) :
    parseValue fuel ('🔍' :: l) = none := by
  cases fuel with
  | zero => rfl
  | succ f =>
    have h3 : ¬(('🔍' : Char) = lbrace) := by decide
    rw [parseValue.eq_def]
    simp [skipWs_not_ws, isWsChar, Char.isDigit, h3]

/-- C10: the header line echoing the query is always the first line printed,
whatever the mode and gateway outcome; and in JSON mode with a non-empty
normalized result list, stdout is exactly the header line followed by the
JSON document, so the combined stdout stream is not itself parseable JSON. -/
theorem claim_C10_header_and_stdout (query : String) (rs : List RawRecord)
    (fs : List FormattedResult) (hfs : formatResults rs = .ok fs) (hne : fs ≠ []) :
    (∀ outputMode gw, ∃ restOut, mainOutput query outputMode gw
        = .ok (("🔍 搜索: " ++ query ++ "\n") :: restOut))
      ∧ mainOutput query "json" (.ok rs)
          = .ok ["🔍 搜索: " ++ query ++ "\n", dumpsOutput query fs]
      ∧ parseJsonChars (stdoutOf ["🔍 搜索: " ++ query ++ "\n", dumpsOutput query fs])
          = none := by
  refine ⟨?_, ?_, ?_⟩
  · intro outputMode gw
    obtain ⟨lines, hl⟩ :=
      renderResults_ok outputMode query (search gw).returned (search_goodAbstract gw)
    refine ⟨(search gw).printed ++ lines, ?_⟩
    unfold mainOutput
    rw [hl]
  · have hsearch : search (.ok rs) = ⟨[], fs⟩ := by
      have hs : search (.ok rs) = (match formatResults rs with
          | .error e => ⟨["搜索出错: " ++ e], []⟩
          | .ok fs => ⟨[], fs⟩) := rfl
      rw [hs, hfs]
    have hrr : renderResults "json" query fs = .ok [dumpsOutput query fs] := by
      obtain ⟨a, as, hcons⟩ := List.exists_cons_of_ne_nil hne
      subst hcons
      simp [renderResults]
    unfold mainOutput
    rw [hsearch]
    show (match renderResults "json" query fs with
          | Except.error e => (Except.error e : Except String (List String))
          | Except.ok rendered =>
            Except.ok (("🔍 搜索: " ++ query ++ "\n") :: ([] ++ rendered))) = _
    rw [hrr]
    simp
  · have hlit : ("🔍 搜索: " : String).data = '🔍' :: [' ', '搜', '索', ':', ' '] := rfl
    have hstd : stdoutOf ["🔍 搜索: " ++ query ++ "\n", dumpsOutput query fs]
        = '🔍' :: ([' ', '搜', '索', ':', ' '] ++ (query.data ++ ("\n".data ++
            ('\n' :: ((dumpsOutput query fs).data ++ ['\n']))))) := by
      show ("🔍 搜索: " ++ query ++ "\n").data ++
          ('\n' :: ((dumpsOutput query fs).data ++ ('\n' :: []))) = _
      rw [String.data_append, String.data_append, hlit]
      simp [List.append_assoc]
    rw [hstd]
    unfold parseJsonChars
    rw [parseValue_bad_head]

/-- C10 witness: one concrete record, json mode. -/
theorem claim_C10_header_and_stdout_witness :
    (∀ outputMode gw, ∃ restOut, mainOutput "测试" outputMode gw
        = .ok (("🔍 搜索: " ++ "测试" ++ "\n") :: restOut))
      ∧ mainOutput "测试" "json"
          (.ok ([⟨some (.pyStr "t"), some (.pyStr "/a"), some (.pyStr "x"),
            some (.pyInt 1)⟩] : List RawRecord))
          = .ok ["🔍 搜索: " ++ "测试" ++ "\n",
              dumpsOutput "测试" [⟨.pyStr "t", .pyStr "https://www.baidu.com/a",
                .pyStr "x", .pyInt 1, .pyStr "百度"⟩]]
      ∧ parseJsonChars (stdoutOf ["🔍 搜索: " ++ "测试" ++ "\n",
          dumpsOutput "测试" [⟨.pyStr "t", .pyStr "https://www.baidu.com/a",
            .pyStr "x", .pyInt 1, .pyStr "百度"⟩]]) = none :=
  claim_C10_header_and_stdout "测试"
    [⟨some (.pyStr "t"), some (.pyStr "/a"), some (.pyStr "x"), some (.pyInt 1)⟩]
    [⟨.pyStr "t", .pyStr "https://www.baidu.com/a", .pyStr "x", .pyInt 1, .pyStr "百度"⟩]
    rfl (List.cons_ne_nil _ _)

end BaiduSearch
